import Mathlib

/-
Verification of `sxs/utilities/sxs_directories.py`.

The Python module is embedded shallowly: the process state (environment
variables, filesystem, the `functools.lru_cache` memoization table, emitted
warnings and `atexit` registrations) is threaded explicitly through every
function as a value of type `St`, and fallible operations return
`Except Err`.  Filesystem behaviour (which paths are directories, which are
writable, which `mkdir` calls raise `OSError`, what `tempfile.mkdtemp`
returns) is an oracle stored in the state, so theorems quantify over every
possible filesystem behaviour.
-/

set_option linter.unusedVariables false

namespace Sxs

/-- A filesystem path, represented as the list of its components from the
filesystem root. -/
abbrev DirPath := List String

/-- Python exceptions surfaced by the embedded functions: `invalidArgument`
models `ValueError`, `osError` models `OSError`, and `attributeError` models
`AttributeError`. -/
inductive Err
  | invalidArgument
  | osError
  | attributeError
deriving DecidableEq

/-- One warning emitted by `warnings.warn` inside `sxs_directory`, recorded by
the values interpolated into the message text: the directory type, the
temporary directory named in the message, and the unwritable default path
named in the message. -/
structure Warning where
  dtype : String
  tmpDir : DirPath
  unwritableDir : DirPath
deriving DecidableEq

/-- The process-wide state threaded through the embedded module.

* `env` models `os.environ` as an association list (a later binding shadows
  an earlier one, matching assignment).
* `posixLike` models `sys.platform.startswith(("linux", "freebsd"))`.
* `home` models `Path.home()`.
* `expandResolve` models `Path(string).expanduser().resolve()` on a string
  taken from the environment.
* `resolveP` models `Path(p).expanduser().resolve()` on an already-built path.
* `isDir`, `isFile`, `writable` model `Path.is_dir()`, regular-file existence,
  and `os.access(str(p), os.W_OK)`.
* `mkdirRaises` tells which `mkdir` attempts raise `OSError`.
* `mkdtempName n` is the fresh directory produced by the `n`-th call to
  `tempfile.mkdtemp(prefix="sxs-")`, and `mkdtempRaises n` tells whether that
  call raises; `tmpCtr` counts the calls made so far.
* `warnings` collects emitted warnings, `cleanups` collects the directories
  registered with `atexit.register(shutil.rmtree, ...)`.
* `cache` is the `functools.lru_cache` table of `sxs_directory`, keyed by the
  argument pair `(directory_type, persistent)`. -/
structure St where
  env : List (String × String)
  posixLike : Bool
  home : DirPath
  expandResolve : String → DirPath
  resolveP : DirPath → DirPath
  isDir : DirPath → Bool
  isFile : DirPath → Bool
  writable : DirPath → Bool
  mkdirRaises : DirPath → Bool
  mkdtempName : Nat → DirPath
  mkdtempRaises : Nat → Bool
  tmpCtr : Nat
  warnings : List Warning
  cleanups : List DirPath
  cache : List ((String × Bool) × DirPath)

instance : Inhabited St :=
  ⟨{ env := [], posixLike := true, home := [], expandResolve := fun _ => [],
     resolveP := fun p => p, isDir := fun _ => false, isFile := fun _ => false,
     writable := fun _ => false, mkdirRaises := fun _ => false,
     mkdtempName := fun _ => [], mkdtempRaises := fun _ => false,
     tmpCtr := 0, warnings := [], cleanups := [], cache := [] }⟩

deriving instance DecidableEq for Except

/-- Python's `str.upper()` (the directory types are ASCII). -/
def strUpper (s : String) : String :=
  ⟨s.data.map Char.toUpper⟩

/-- Look a key up in `os.environ` (`os.getenv` / `os.environ.get`). -/
def getEnv : List (String × String) → String → Option String
  | [], _ => none
  | kv :: rest, k => if kv.1 = k then some kv.2 else getEnv rest k

/-- Assign `os.environ[k] = v`; the new binding shadows any earlier one. -/
def setEnv (env : List (String × String)) (k v : String) : List (String × String) :=
  (k, v) :: env

/-- Look an argument pair up in the `lru_cache` table of `sxs_directory`. -/
def lookupCache : List ((String × Bool) × DirPath) → String × Bool → Option DirPath
  | [], _ => none
  | e :: rest, k => if e.1 = k then some e.2 else lookupCache rest k

/-- Record a computed result in the `lru_cache` table (done on every return
that does not raise, which is how `functools.lru_cache` behaves). -/
def cacheInsert (k : String × Bool) (q : DirPath) (s : St) : St :=
  { s with cache := (k, q) :: s.cache }

/-- Render a path as the string stored into `os.environ` on the fallback
path. -/
def pathStr (p : DirPath) : String :=
  String.intercalate "/" ("" :: p)

/-- The suffix `Path("cache") if directory_type == "cache" else Path()`. -/
def suffixOf (directory_type : String) : DirPath :=
  if directory_type = "cache" then ["cache"] else []

/-- `p.mkdir(parents=True, exist_ok=True)`: succeeds without change when `p`
is already a directory; otherwise it either raises `OSError` (`none`) or
creates `p` together with all its ancestors. -/
def parentsMkdir (p : DirPath) (s : St) : Option St :=
  if s.isDir p then some s
  else if s.mkdirRaises p then none
  else some { s with isDir := fun q => q.isPrefixOf p || s.isDir q }

/-- `p.mkdir(exist_ok=True)` (no `parents`): succeeds without change when `p`
is already a directory; otherwise it raises `OSError` (`none`) when the
filesystem refuses or the parent directory is missing, and creates exactly
`p` when it succeeds. -/
def plainMkdir (p : DirPath) (s : St) : Option St :=
  if s.isDir p then some s
  else if s.mkdirRaises p || !s.isDir p.dropLast then none
  else some { s with isDir := fun q => q == p || s.isDir q }

/-- `tempfile.mkdtemp(prefix="sxs-")`: either raises (`none`) or creates a
fresh directory that, per the `tempfile` contract, is a directory writable by
the creating user. -/
def mkdtempOp (s : St) : Option (DirPath × St) :=
  if s.mkdtempRaises s.tmpCtr then none
  else
    let t := s.mkdtempName s.tmpCtr
    some (t, { s with
      tmpCtr := s.tmpCtr + 1,
      isDir := fun q => q == t || s.isDir q,
      writable := fun q => q == t || s.writable q })

/-- `config_path.exists()`: true when the path is a regular file or a
directory. -/
def pathExists (s : St) (p : DirPath) : Bool :=
  s.isFile p || s.isDir p

/-- The candidate used when the `SXS<TYPE>DIR` variable is unset or empty:
on Linux/FreeBSD, `Path(os.environ.get("XDG_<TYPE>_HOME") or Path.home() /
f".{directory_type}").expanduser().resolve() / "sxs"`; on other platforms,
`Path.home() / ".sxs" / suffix`. -/
def persistentDefault (directory_type : String) (s : St) : DirPath :=
  if s.posixLike then
    match getEnv s.env ("XDG_" ++ strUpper directory_type ++ "_HOME") with
    | some v =>
      if v = "" then s.resolveP (s.home ++ ["." ++ directory_type]) ++ ["sxs"]
      else s.expandResolve v ++ ["sxs"]
    | none => s.resolveP (s.home ++ ["." ++ directory_type]) ++ ["sxs"]
  else
    s.home ++ [".sxs"] ++ suffixOf directory_type

/-- The persistent candidate directory: `os.getenv(f"SXS{...}DIR",
default=False)` is used when it is set and truthy (a non-empty string),
after `Path(...).expanduser().resolve()`; otherwise the platform default. -/
def persistentCandidate (directory_type : String) (s : St) : DirPath :=
  match getEnv s.env ("SXS" ++ strUpper directory_type ++ "DIR") with
  | some v =>
    if v = "" then persistentDefault directory_type s
    else s.expandResolve v
  | none => persistentDefault directory_type s

/-- The body of the `if persistent:` block: try to create the candidate
(`OSError` is swallowed), and return it when it is a writable directory.
The result is `(returned path if any, unwritable candidate, state)`. -/
def persistentAttempt (directory_type : String) (s : St) :
    Option DirPath × DirPath × St :=
  let sxs_dir := persistentCandidate directory_type s
  match parentsMkdir sxs_dir s with
  | none => (none, sxs_dir, s)
  | some s1 =>
    if s1.writable sxs_dir && s1.isDir sxs_dir then (some sxs_dir, sxs_dir, s1)
    else (none, sxs_dir, s1)

/-- The final fallback: `tmpdir = os.environ[f"SXS{...}DIR"] =
tempfile.mkdtemp(prefix="sxs-")`, register the `atexit` cleanup, warn when
`persistent` is true, and for the cache type create the `cache` subdirectory
with an unguarded `mkdir(exist_ok=True)` whose failure propagates. -/
def finalFallback (directory_type : String) (persistent : Bool)
    (unwritable : DirPath) (s : St) : Except Err DirPath × St :=
  match mkdtempOp s with
  | none => (Except.error Err.osError, s)
  | some (t, s1) =>
    let s2 := { s1 with
      env := setEnv s1.env ("SXS" ++ strUpper directory_type ++ "DIR") (pathStr t),
      cleanups := t :: s1.cleanups }
    let sxs_dir := t ++ suffixOf directory_type
    let s3 :=
      if persistent then
        { s2 with warnings := s2.warnings ++ [⟨directory_type, sxs_dir, unwritable⟩] }
      else s2
    if directory_type = "cache" then
      match plainMkdir sxs_dir s3 with
      | none => (Except.error Err.osError, s3)
      | some s4 => (Except.ok sxs_dir, cacheInsert (directory_type, persistent) sxs_dir s4)
    else
      (Except.ok sxs_dir, cacheInsert (directory_type, persistent) sxs_dir s3)

/-- The tail of the cache branch: `sxs_dir = sxs_directory("config",
persistent=persistent) / "cache"`, then a guarded `mkdir(exist_ok=True)` and
the writability check, falling back to `finalFallback` on failure.  `inner`
is the already-computed result of the recursive call; an exception from it
propagates. -/
def cacheTail (persistent : Bool) (unwritable : DirPath)
    (inner : Except Err DirPath × St) : Except Err DirPath × St :=
  match inner with
  | (Except.error e, s2) => (Except.error e, s2)
  | (Except.ok cfg, s2) =>
    let nested := cfg ++ ["cache"]
    match plainMkdir nested s2 with
    | none => finalFallback "cache" persistent unwritable s2
    | some s3 =>
      if s3.writable nested && s3.isDir nested then
        (Except.ok nested, cacheInsert ("cache", persistent) nested s3)
      else
        finalFallback "cache" persistent unwritable s3

/-- The full body of `sxs_directory`, with the recursive call to
`sxs_directory("config", persistent=persistent)` abstracted as `inner`.  The
leading `lookupCache` and the `cacheInsert` on every normal return model the
`functools.lru_cache` decorator (exceptions are not cached). -/
def sxs_body (inner : Bool → St → Except Err DirPath × St)
    (directory_type : String) (persistent : Bool) (s : St) :
    Except Err DirPath × St :=
  match lookupCache s.cache (directory_type, persistent) with
  | some q => (Except.ok q, s)
  | none =>
    if directory_type ∉ (["cache", "config"] : List String) then
      (Except.error Err.invalidArgument, s)
    else
      match (if persistent then persistentAttempt directory_type s else (none, [], s)) with
      | (some q, _, s1) => (Except.ok q, cacheInsert (directory_type, persistent) q s1)
      | (none, unwritable, s1) =>
        if directory_type = "cache" then
          cacheTail persistent unwritable (inner persistent s1)
        else
          finalFallback directory_type persistent unwritable s1

/-- `sxs_directory("config", persistent)`: the body never takes the cache
branch, so the recursive-call argument is dead code (a dummy is supplied). -/
def sxs_directory_config (persistent : Bool) (s : St) : Except Err DirPath × St :=
  sxs_body (fun _ s2 => (Except.error Err.osError, s2)) "config" persistent s

/-- The embedding of `sxs_directory(directory_type, persistent=True)`.  Its
only recursive call is `sxs_directory("config", persistent=persistent)` from
the cache branch, supplied here as `sxs_directory_config`. -/
def sxs_directory (directory_type : String) (persistent : Bool) (s : St) :
    Except Err DirPath × St :=
  sxs_body sxs_directory_config directory_type persistent s

/-- A Python runtime value as handled by `read_config` / `write_config`: a
`dict`, a `pathlib.Path`, or an open file object whose JSON content parses to
the given dictionary. -/
inductive PyObj (α : Type)
  | dict : List (String × α) → PyObj α
  | pathObj : DirPath → PyObj α
  | fileObj : List (String × α) → PyObj α

/-- `json.load(fp)` calls `fp.read()`: it succeeds on an open file object and
raises `AttributeError` on a `dict` or a `pathlib.Path`, neither of which has
a `read` attribute. -/
def json_load {α : Type} : PyObj α → Except Err (List (String × α))
  | PyObj.fileObj d => Except.ok d
  | PyObj.dict _ => Except.error Err.attributeError
  | PyObj.pathObj _ => Except.error Err.attributeError

/-- `obj.open("w")`: only a `pathlib.Path` has an `open` attribute; invoking
it on a `dict` raises `AttributeError`. -/
def pyOpen {α : Type} : PyObj α → Except Err (PyObj α)
  | PyObj.pathObj _ => Except.ok (PyObj.fileObj [])
  | PyObj.dict _ => Except.error Err.attributeError
  | PyObj.fileObj d => Except.ok (PyObj.fileObj d)

/-- `d.get(k, default)` on a Python dict. -/
def dictGet {α : Type} (d : List (String × α)) (k : String) (default : α) : α :=
  match d.find? (fun e => e.1 == k) with
  | some e => e.2
  | none => default

/-- `d.update(**kwargs)` on a Python dict. -/
def dictUpdate {α : Type} (d : List (String × α)) (kw : List (String × α)) :
    List (String × α) :=
  kw.foldl (fun acc e => (e.1, e.2) :: acc.filter (fun x => x.1 != e.1)) d

/-- Writing a file at `p` (the effect `json.dump` would have had). -/
def writeFile (s : St) (p : DirPath) : St :=
  { s with isFile := fun q => q == p || s.isFile q }

/-- The result of `read_config`: either the whole configuration dictionary
(when `key is None`) or a single looked-up value. -/
inductive ReadResult (α : Type)
  | dict : List (String × α) → ReadResult α
  | value : α → ReadResult α
deriving DecidableEq

/-- The embedding of `read_config(key, default)`: resolve the config
directory, then `json.load(config_path)` when `config.json` exists (note the
`pathlib.Path` is passed directly to `json.load`), else start from `{}`;
return the whole dict for `key=None` and `config.get(key, default)`
otherwise. -/
def read_config {α : Type} (key : Option String) (default : α) (s : St) :
    Except Err (ReadResult α) × St :=
  match sxs_directory "config" true s with
  | (Except.error e, s1) => (Except.error e, s1)
  | (Except.ok dir, s1) =>
    let config_path := dir ++ ["config.json"]
    match (if pathExists s1 config_path
           then json_load (PyObj.pathObj config_path : PyObj α)
           else Except.ok []) with
    | Except.error e => (Except.error e, s1)
    | Except.ok config =>
      match key with
      | none => (Except.ok (ReadResult.dict config), s1)
      | some k => (Except.ok (ReadResult.value (dictGet config k default)), s1)

/-- The embedding of `write_config(**kwargs)`: resolve the config directory,
load or initialise the dict, merge `kwargs`, then execute `with
config.open("w")` — note `open` is invoked on the dict `config`, not on
`config_path`, so this raises `AttributeError` before any write. -/
def write_config {α : Type} (kwargs : List (String × α)) (s : St) :
    Except Err Unit × St :=
  match sxs_directory "config" true s with
  | (Except.error e, s1) => (Except.error e, s1)
  | (Except.ok dir, s1) =>
    let config_path := dir ++ ["config.json"]
    match (if pathExists s1 config_path
           then json_load (PyObj.pathObj config_path : PyObj α)
           else Except.ok []) with
    | Except.error e => (Except.error e, s1)
    | Except.ok config0 =>
      let config := dictUpdate config0 kwargs
      match pyOpen (PyObj.dict config : PyObj α) with
      | Except.error e => (Except.error e, s1)
      | Except.ok _ => (Except.ok (), writeFile s1 config_path)

/-- A concrete base state: empty environment, Linux-like platform, no
existing directories or files, nothing writable, no `mkdir` failure, and
`tempfile.mkdtemp` producing `/tmp/sxs-0`, `/tmp/sxs-1`, ... -/
def baseSt : St :=
  { env := [], posixLike := true, home := ["home"],
    expandResolve := fun v => [v], resolveP := fun p => p,
    isDir := fun _ => false, isFile := fun _ => false,
    writable := fun _ => false, mkdirRaises := fun _ => false,
    mkdtempName := fun n => ["tmp", "sxs-" ++ toString n],
    mkdtempRaises := fun _ => false, tmpCtr := 0,
    warnings := [], cleanups := [], cache := [] }

/-- A state whose `SXSCONFIGDIR` override names the existing writable
directory `/e`. -/
def envSt : St :=
  { baseSt with
    env := [("SXSCONFIGDIR", "/e"), ("SXSCACHEDIR", "/e")],
    isDir := fun q => q == ["/e"],
    writable := fun q => q == ["/e"] }

/-- The second state of the memoization witness: the directory `/e` returned
by the first call no longer exists, nothing is writable, and the environment
override is gone — only the memoization table survives. -/
def memoSt2 : St :=
  { baseSt with cache := ((sxs_directory "config" true envSt).2).cache }

/-- A state in which the nested `cache` subdirectory of the temporary config
directory will pass the writability check. -/
def nestedSt : St :=
  { baseSt with writable := fun q => q == ["tmp", "sxs-0", "cache"] }

/-- The resolution state at the moment `sxs_directory` enters its final
temporary-directory fallback: `some (unwritable_dir, state)` when the fresh
resolution of `(dt, p)` from `s` reaches that fallback, `none` otherwise.
This replays the routing of `sxs_body` up to the fallback. -/
def routeToFallback (dt : String) (p : Bool) (s : St) : Option (DirPath × St) :=
  match lookupCache s.cache (dt, p) with
  | some _ => none
  | none =>
    if dt ∉ (["cache", "config"] : List String) then none
    else
      match (if p = true then persistentAttempt dt s else (none, [], s)) with
      | (some _, _, _) => none
      | (none, u, s1) =>
        if dt = "cache" then
          match sxs_directory "config" p s1 with
          | (Except.error _, _) => none
          | (Except.ok cfg, s2) =>
            match plainMkdir (cfg ++ ["cache"]) s2 with
            | none => some (u, s2)
            | some s3 =>
              if s3.writable (cfg ++ ["cache"]) && s3.isDir (cfg ++ ["cache"]) then none
              else some (u, s3)
        else some (u, s1)

/-- The state at entry to the final fallback in the warning witness run. -/
def fallbackWitnessSt : St :=
  ((routeToFallback "config" true baseSt).getD ([], baseSt)).2

/-- The fields of the process state that no operation of the module ever
mutates: the file oracle and the `mkdir`/`mkdtemp` failure oracles. -/
def stableFields (s s2 : St) : Prop :=
  s2.isFile = s.isFile ∧ s2.mkdirRaises = s.mkdirRaises ∧
  s2.mkdtempName = s.mkdtempName ∧ s2.mkdtempRaises = s.mkdtempRaises

/-- A state whose `mkdir` raises `OSError` on every path ending in `cache`
while `tempfile.mkdtemp` never fails. -/
def raisySt : St :=
  { baseSt with mkdirRaises := fun q => q.getLast? == some "cache" }

/-- A state like `envSt` in which `config.json` already exists inside the
resolved config directory. -/
def envFileSt : St :=
  { envSt with isFile := fun q => q == ["/e", "config.json"] }

/-! Theorems about the embedded module. -/

theorem valid_dt_not_notMem {dt : String} (hdt : dt = "cache" ∨ dt = "config") :
    ¬ dt ∉ (["cache", "config"] : List String) := by
  rcases hdt with rfl | rfl <;> simp

theorem lookupCache_cacheInsert_self (k : String × Bool) (q : DirPath) (s : St) :
    lookupCache (cacheInsert k q s).cache k = some q := by
  simp [cacheInsert, lookupCache]

/-- C6: an unrecognized `directory_type` raises `ValueError` at once, with the
process state (environment, filesystem, caches) left untouched. -/
theorem sxs_directory_invalid_argument (dt : String) (p : Bool) (s : St)
    (hdt : dt ∉ (["cache", "config"] : List String))
    (hm : lookupCache s.cache (dt, p) = none) :
    sxs_directory dt p s = (Except.error Err.invalidArgument, s) := by
  unfold sxs_directory sxs_body
  rw [hm]
  simp [hdt]

theorem sxs_directory_invalid_argument_witness :
    ("waveforms" ∉ (["cache", "config"] : List String)) ∧
    lookupCache baseSt.cache ("waveforms", true) = none ∧
    sxs_directory "waveforms" true baseSt = (Except.error Err.invalidArgument, baseSt) :=
  ⟨by decide, rfl,
    sxs_directory_invalid_argument "waveforms" true baseSt (by decide) rfl⟩

/-- C7: with `persistent=True`, when the override variable `SXS<TYPE>DIR` is
set to a non-empty value that resolves (after `expanduser`/`resolve`) to an
existing writable directory, that directory is returned, bypassing the
XDG/home defaults, and the only state change is the memoization entry. -/
theorem sxs_directory_env_override (dt : String) (s : St) (v : String) (q : DirPath)
    (hdt : dt = "cache" ∨ dt = "config")
    (hm : lookupCache s.cache (dt, true) = none)
    (he : getEnv s.env ("SXS" ++ strUpper dt ++ "DIR") = some v)
    (hv : v ≠ "")
    (hq : s.expandResolve v = q)
    (hd : s.isDir q = true)
    (hw : s.writable q = true) :
    sxs_directory dt true s = (Except.ok q, cacheInsert (dt, true) q s) := by
  have hcand : persistentCandidate dt s = q := by
    unfold persistentCandidate
    rw [he]
    simp [hv, hq]
  have hatt : persistentAttempt dt s = (some q, q, s) := by
    unfold persistentAttempt
    rw [hcand]
    simp [parentsMkdir, hd, hw]
  unfold sxs_directory sxs_body
  rw [hm]
  rw [if_neg (valid_dt_not_notMem hdt)]
  simp [hatt]

theorem sxs_directory_env_override_witness :
    getEnv envSt.env ("SXS" ++ strUpper "config" ++ "DIR") = some "/e" ∧
    envSt.isDir ["/e"] = true ∧ envSt.writable ["/e"] = true ∧
    sxs_directory "config" true envSt =
      (Except.ok ["/e"], cacheInsert ("config", true) ["/e"] envSt) :=
  ⟨rfl, rfl, rfl,
    sxs_directory_env_override "config" envSt "/e" ["/e"]
      (Or.inr rfl) rfl rfl (by decide) rfl rfl rfl⟩

theorem finalFallback_error_or_insert (dt : String) (p : Bool) (u : DirPath) (s : St) :
    (∃ e s9, finalFallback dt p u s = (Except.error e, s9)) ∨
    (∃ q s9, finalFallback dt p u s = (Except.ok q, cacheInsert (dt, p) q s9)) := by
  unfold finalFallback
  cases hmk : mkdtempOp s with
  | none =>
    exact Or.inl ⟨_, _, rfl⟩
  | some ts =>
    obtain ⟨t, s1⟩ := ts
    dsimp only
    by_cases hdt : dt = "cache"
    · rw [if_pos hdt]
      split
      · exact Or.inl ⟨_, _, rfl⟩
      · exact Or.inr ⟨_, _, rfl⟩
    · rw [if_neg hdt]
      exact Or.inr ⟨_, _, rfl⟩

theorem cacheTail_error_or_insert (p : Bool) (u : DirPath)
    (inn : Except Err DirPath × St) :
    (∃ e s9, cacheTail p u inn = (Except.error e, s9)) ∨
    (∃ q s9, cacheTail p u inn = (Except.ok q, cacheInsert ("cache", p) q s9)) := by
  unfold cacheTail
  obtain ⟨r, s2⟩ := inn
  cases r with
  | error e => exact Or.inl ⟨_, _, rfl⟩
  | ok cfg =>
    dsimp only
    split
    · exact finalFallback_error_or_insert "cache" p u _
    · split
      · exact Or.inr ⟨_, _, rfl⟩
      · exact finalFallback_error_or_insert "cache" p u _

theorem sxs_body_ok_cached (inner : Bool → St → Except Err DirPath × St)
    (dt : String) (p : Bool) (s : St) (q : DirPath)
    (h : (sxs_body inner dt p s).1 = Except.ok q) :
    lookupCache ((sxs_body inner dt p s).2).cache (dt, p) = some q := by
  unfold sxs_body at h ⊢
  cases hLook : lookupCache s.cache (dt, p) with
  | some q0 =>
    rw [hLook] at h
    dsimp only at h
    rw [hLook]
    injection h with h
    rw [h]
  | none =>
    rw [hLook] at h
    dsimp only at h
    by_cases hdt : dt ∉ (["cache", "config"] : List String)
    · rw [if_pos hdt] at h
      simp at h
    · have hdt2 : dt = "cache" ∨ dt = "config" :=
        or_iff_not_imp_left.mpr (by simpa using hdt)
      rw [if_neg hdt] at h ⊢
      cases hstep : (if p = true then persistentAttempt dt s else (none, [], s)) with
      | mk o rest =>
        obtain ⟨u, s1⟩ := rest
        rw [hstep] at h
        cases o with
        | some q1 =>
          dsimp only at h ⊢
          rw [lookupCache_cacheInsert_self]
          injection h with h
          rw [h]
        | none =>
          dsimp only at h ⊢
          rcases hdt2 with rfl | rfl
          · simp only [String.reduceEq, reduceIte] at h ⊢
            rcases cacheTail_error_or_insert p u (inner p s1) with ⟨e, s9, hEq⟩ | ⟨q2, s9, hEq⟩
            · rw [hEq] at h
              simp at h
            · rw [hEq] at h ⊢
              dsimp only at h ⊢
              rw [lookupCache_cacheInsert_self]
              injection h with h
              rw [h]
          · simp only [String.reduceEq, reduceIte] at h ⊢
            rcases finalFallback_error_or_insert "config" p u s1 with ⟨e, s9, hEq⟩ | ⟨q2, s9, hEq⟩
            · rw [hEq] at h
              simp at h
            · rw [hEq] at h ⊢
              dsimp only at h ⊢
              rw [lookupCache_cacheInsert_self]
              injection h with h
              rw [h]

/-- C2: once a call `sxs_directory(dt, p)` has returned a path, any later call
with the same arguments returns the identical path with no state change at
all, on every state that carries the first call's memoization table — however
the environment or the filesystem (including the returned directory) have
changed in between. -/
theorem sxs_directory_memoized (dt : String) (p : Bool) (s s2 : St) (q : DirPath)
    (h1 : (sxs_directory dt p s).1 = Except.ok q)
    (h2 : s2.cache = ((sxs_directory dt p s).2).cache) :
    sxs_directory dt p s2 = (Except.ok q, s2) := by
  have hc : lookupCache s2.cache (dt, p) = some q := by
    rw [h2]
    exact sxs_body_ok_cached sxs_directory_config dt p s q h1
  unfold sxs_directory sxs_body
  rw [hc]

theorem sxs_directory_memoized_witness :
    (sxs_directory "config" true envSt).1 = Except.ok ["/e"] ∧
    memoSt2.isDir ["/e"] = false ∧ memoSt2.env = [] ∧
    sxs_directory "config" true memoSt2 = (Except.ok ["/e"], memoSt2) :=
  ⟨rfl, rfl, rfl, sxs_directory_memoized "config" true envSt memoSt2 ["/e"] rfl rfl⟩

theorem sxs_body_config_inner_irrel (f g : Bool → St → Except Err DirPath × St)
    (p : Bool) (s : St) :
    sxs_body f "config" p s = sxs_body g "config" p s := by
  unfold sxs_body
  cases hLook : lookupCache s.cache ("config", p) with
  | some q0 => rfl
  | none =>
    dsimp only
    simp only [if_neg (valid_dt_not_notMem (Or.inr rfl))]
    generalize (if p = true then persistentAttempt "config" s else (none, [], s)) = step
    obtain ⟨o, u, s1⟩ := step
    cases o with
    | some q1 => rfl
    | none =>
      dsimp only
      simp only [if_neg (show ¬ ("config" = "cache") by decide)]

theorem sxs_directory_config_eq (p : Bool) (s : St) :
    sxs_directory "config" p s = sxs_directory_config p s :=
  sxs_body_config_inner_irrel sxs_directory_config
    (fun _ s2 => (Except.error Err.osError, s2)) p s

/-- C4: for the cache purpose, when the persistent candidates fail, the
function resolves the config directory recursively (with the same
`persistent` flag) and returns its `cache` subdirectory whenever that
subdirectory can be created and is a writable directory. -/
theorem sxs_directory_cache_nested (p : Bool) (s s1 s2 s3 : St) (cfg : DirPath)
    (hm : lookupCache s.cache ("cache", p) = none)
    (hstep : (if p = true then persistentAttempt "cache" s else (none, [], s)).1 = none)
    (hs1 : s1 = (if p = true then persistentAttempt "cache" s else (none, [], s)).2.2)
    (hcfg : (sxs_directory "config" p s1).1 = Except.ok cfg)
    (hs2 : s2 = (sxs_directory "config" p s1).2)
    (hmk : plainMkdir (cfg ++ ["cache"]) s2 = some s3)
    (hw : s3.writable (cfg ++ ["cache"]) = true)
    (hd : s3.isDir (cfg ++ ["cache"]) = true) :
    sxs_directory "cache" p s =
      (Except.ok (cfg ++ ["cache"]), cacheInsert ("cache", p) (cfg ++ ["cache"]) s3) := by
  have hpair : sxs_directory "config" p s1 = (Except.ok cfg, s2) := by
    rw [hs2, ← hcfg]
  unfold sxs_directory sxs_body
  rw [hm]
  dsimp only
  rw [if_neg (valid_dt_not_notMem (Or.inl rfl))]
  generalize hg : (if p = true then persistentAttempt "cache" s else (none, [], s)) = step at hstep hs1
  obtain ⟨o, u, s1x⟩ := step
  dsimp only at hstep hs1
  subst hstep
  subst hs1
  dsimp only
  rw [if_pos rfl]
  have hinner : sxs_directory_config p s1 = (Except.ok cfg, s2) := by
    rw [← sxs_directory_config_eq]
    exact hpair
  rw [hinner]
  unfold cacheTail
  dsimp only
  rw [hmk]
  dsimp only
  simp [hw, hd]

theorem sxs_directory_cache_nested_witness :
    (sxs_directory "config" false nestedSt).1 = Except.ok ["tmp", "sxs-0"] ∧
    sxs_directory "cache" false nestedSt =
      (Except.ok (["tmp", "sxs-0"] ++ ["cache"]),
        cacheInsert ("cache", false) (["tmp", "sxs-0"] ++ ["cache"])
          ((plainMkdir (["tmp", "sxs-0"] ++ ["cache"])
            ((sxs_directory "config" false nestedSt).2)).getD baseSt)) :=
  ⟨rfl,
    sxs_directory_cache_nested false nestedSt nestedSt
      ((sxs_directory "config" false nestedSt).2)
      ((plainMkdir (["tmp", "sxs-0"] ++ ["cache"])
        ((sxs_directory "config" false nestedSt).2)).getD baseSt)
      ["tmp", "sxs-0"] rfl rfl rfl rfl rfl rfl rfl rfl⟩

/-- C8: with `persistent=False` the persistent-path search is skipped for any
state whatsoever (no hypothesis about `SXS*DIR`, XDG variables, or the
writability of any persistent candidate is needed): the config purpose goes
straight to the freshly created temporary directory, and the cache purpose
recursively resolves that temporary config directory and returns its `cache`
subdirectory. -/
theorem sxs_directory_nonpersistent (s s2 s3 : St)
    (hm1 : lookupCache s.cache ("config", false) = none)
    (hm2 : lookupCache s.cache ("cache", false) = none)
    (ht : s.mkdtempRaises s.tmpCtr = false)
    (hs2 : s2 = (sxs_directory "config" false s).2)
    (hmk : plainMkdir (s.mkdtempName s.tmpCtr ++ ["cache"]) s2 = some s3)
    (hw : s3.writable (s.mkdtempName s.tmpCtr ++ ["cache"]) = true)
    (hd : s3.isDir (s.mkdtempName s.tmpCtr ++ ["cache"]) = true) :
    (sxs_directory "config" false s).1 = Except.ok (s.mkdtempName s.tmpCtr) ∧
    (sxs_directory "cache" false s).1 =
      Except.ok (s.mkdtempName s.tmpCtr ++ ["cache"]) := by
  have hmkd : mkdtempOp s = some (s.mkdtempName s.tmpCtr,
      { s with tmpCtr := s.tmpCtr + 1,
               isDir := fun q => q == s.mkdtempName s.tmpCtr || s.isDir q,
               writable := fun q => q == s.mkdtempName s.tmpCtr || s.writable q }) := by
    unfold mkdtempOp
    rw [ht]
    rfl
  have hroute : sxs_directory "config" false s = finalFallback "config" false [] s := by
    unfold sxs_directory sxs_body
    rw [hm1]
    dsimp only
    rw [if_neg (valid_dt_not_notMem (Or.inr rfl))]
    rw [show (if false = true then persistentAttempt "config" s else (none, [], s)) =
        ((none : Option DirPath), ([] : DirPath), s) from rfl]
    dsimp only
    rw [if_neg (show ¬ ("config" = "cache") by decide)]
  have hpart1 : (sxs_directory "config" false s).1 = Except.ok (s.mkdtempName s.tmpCtr) := by
    rw [hroute]
    unfold finalFallback
    rw [hmkd]
    dsimp only
    rw [if_neg (show ¬ ("config" = "cache") by decide)]
    simp [suffixOf]
  refine ⟨hpart1, ?_⟩
  have hpair : sxs_directory "config" false s = (Except.ok (s.mkdtempName s.tmpCtr), s2) := by
    rw [hs2, ← hpart1]
  unfold sxs_directory sxs_body
  rw [hm2]
  dsimp only
  rw [if_neg (valid_dt_not_notMem (Or.inl rfl))]
  rw [show (if false = true then persistentAttempt "cache" s else (none, [], s)) =
      ((none : Option DirPath), ([] : DirPath), s) from rfl]
  dsimp only
  rw [if_pos rfl]
  rw [show sxs_directory_config false s = sxs_directory "config" false s from
    (sxs_directory_config_eq false s).symm]
  rw [hpair]
  unfold cacheTail
  dsimp only
  rw [hmk]
  dsimp only
  simp [hw, hd]

theorem sxs_directory_nonpersistent_witness :
    (sxs_directory "config" false nestedSt).1 = Except.ok ["tmp", "sxs-0"] ∧
    (sxs_directory "cache" false nestedSt).1 =
      Except.ok (["tmp", "sxs-0"] ++ ["cache"]) :=
  sxs_directory_nonpersistent nestedSt
    ((sxs_directory "config" false nestedSt).2)
    ((plainMkdir (nestedSt.mkdtempName nestedSt.tmpCtr ++ ["cache"])
      ((sxs_directory "config" false nestedSt).2)).getD baseSt)
    rfl rfl rfl rfl rfl rfl rfl

theorem mkdtempOp_some_eq (s : St) (ts : DirPath × St) (h : mkdtempOp s = some ts) :
    ts = (s.mkdtempName s.tmpCtr,
      { s with tmpCtr := s.tmpCtr + 1,
               isDir := fun q => q == s.mkdtempName s.tmpCtr || s.isDir q,
               writable := fun q => q == s.mkdtempName s.tmpCtr || s.writable q }) := by
  unfold mkdtempOp at h
  by_cases hr : s.mkdtempRaises s.tmpCtr = true
  · rw [if_pos hr] at h
    simp at h
  · rw [if_neg hr] at h
    dsimp only at h
    injection h with h
    exact h.symm

theorem plainMkdir_some_isDir (p : DirPath) (s s2 : St) (h : plainMkdir p s = some s2) :
    s2.isDir p = true := by
  unfold plainMkdir at h
  by_cases h1 : s.isDir p = true
  · rw [if_pos h1] at h
    injection h with h
    rw [← h]
    exact h1
  · rw [if_neg h1] at h
    by_cases h2 : (s.mkdirRaises p || !s.isDir p.dropLast) = true
    · rw [if_pos h2] at h
      simp at h
    · rw [if_neg h2] at h
      injection h with h
      rw [← h]
      simp

theorem persistentAttempt_some (dt : String) (s : St) (q u : DirPath) (s1 : St)
    (h : persistentAttempt dt s = (some q, u, s1)) :
    s1.writable q = true ∧ s1.isDir q = true := by
  unfold persistentAttempt at h
  dsimp only at h
  cases hpm : parentsMkdir (persistentCandidate dt s) s with
  | none =>
    rw [hpm] at h
    simp at h
  | some s1x =>
    rw [hpm] at h
    dsimp only at h
    by_cases hcond : (s1x.writable (persistentCandidate dt s) &&
        s1x.isDir (persistentCandidate dt s)) = true
    · rw [if_pos hcond] at h
      simp only [Prod.mk.injEq, Option.some.injEq] at h
      obtain ⟨h1, h2, h3⟩ := h
      subst h1
      subst h3
      exact Bool.and_eq_true _ _ |>.mp hcond
    · rw [if_neg hcond] at h
      simp at h

theorem finalFallback_dir_spec (dt : String) (p : Bool) (u : DirPath) (s : St) :
    (∃ s9, finalFallback dt p u s = (Except.error Err.osError, s9)) ∨
    (∃ q s9, finalFallback dt p u s = (Except.ok q, s9) ∧ s9.isDir q = true ∧
      (dt ≠ "cache" → s9.writable q = true)) := by
  unfold finalFallback
  cases hmk : mkdtempOp s with
  | none => exact Or.inl ⟨_, rfl⟩
  | some ts =>
    have hts := mkdtempOp_some_eq s ts hmk
    obtain ⟨t, s1⟩ := ts
    simp only [Prod.mk.injEq] at hts
    obtain ⟨ht, hs1⟩ := hts
    subst ht
    subst hs1
    dsimp only
    by_cases hc : dt = "cache"
    · subst hc
      simp only [String.reduceEq, reduceIte, suffixOf] at *
      cases p
      · split
        · exact Or.inl ⟨_, rfl⟩
        · next s4 heq =>
            exact Or.inr ⟨_, _, rfl, plainMkdir_some_isDir _ _ s4 heq,
              fun hne => absurd rfl hne⟩
      · split
        · exact Or.inl ⟨_, rfl⟩
        · next s4 heq =>
            exact Or.inr ⟨_, _, rfl, plainMkdir_some_isDir _ _ s4 heq,
              fun hne => absurd rfl hne⟩
    · simp only [if_neg hc, suffixOf, List.append_nil]
      cases p
      · exact Or.inr ⟨_, _, rfl, by simp [cacheInsert], fun _ => by simp [cacheInsert]⟩
      · exact Or.inr ⟨_, _, rfl, by simp [cacheInsert], fun _ => by simp [cacheInsert]⟩

theorem cacheTail_dir_spec (p : Bool) (u : DirPath) (inn : Except Err DirPath × St) :
    (∃ e s9, cacheTail p u inn = (Except.error e, s9)) ∨
    (∃ q s9, cacheTail p u inn = (Except.ok q, s9) ∧ s9.isDir q = true) := by
  unfold cacheTail
  obtain ⟨r, s2⟩ := inn
  cases r with
  | error e => exact Or.inl ⟨_, _, rfl⟩
  | ok cfg =>
    dsimp only
    split
    · rcases finalFallback_dir_spec "cache" p u s2 with ⟨s9, hEq⟩ | ⟨q, s9, hEq, hd, _⟩
      · exact Or.inl ⟨_, _, hEq⟩
      · exact Or.inr ⟨q, s9, hEq, hd⟩
    · next s3 heq =>
        split
        · next hcond =>
            exact Or.inr ⟨_, _, rfl, (Bool.and_eq_true _ _ |>.mp hcond).2⟩
        · rcases finalFallback_dir_spec "cache" p u s3 with ⟨s9, hEq⟩ | ⟨q, s9, hEq, hd, _⟩
          · exact Or.inl ⟨_, _, hEq⟩
          · exact Or.inr ⟨q, s9, hEq, hd⟩

/-- C1 (amended): whenever a call that actually runs the resolution (not a
memoization hit) returns a path, that path is an existing directory at
return time; for the `config` purpose it is moreover writable.  (For the
`cache` purpose the final temporary fallback creates the returned `cache`
subdirectory without re-checking writability, so writability is only
guaranteed on the persistent and nested-config paths.) -/
theorem sxs_directory_fresh_ok_exists (dt : String) (p : Bool) (s : St) (q : DirPath)
    (hm : lookupCache s.cache (dt, p) = none)
    (h : (sxs_directory dt p s).1 = Except.ok q) :
    ((sxs_directory dt p s).2).isDir q = true ∧
    (dt = "config" → ((sxs_directory dt p s).2).writable q = true) := by
  unfold sxs_directory sxs_body at h ⊢
  rw [hm] at h ⊢
  dsimp only at h ⊢
  by_cases hdt : dt ∉ (["cache", "config"] : List String)
  · rw [if_pos hdt] at h
    simp at h
  · rw [if_neg hdt] at h ⊢
    cases p with
    | false =>
      rw [show (if false = true then persistentAttempt dt s else (none, [], s)) =
          ((none : Option DirPath), ([] : DirPath), s) from rfl] at h ⊢
      dsimp only at h ⊢
      by_cases hc : dt = "cache"
      · subst hc
        simp only [String.reduceEq, reduceIte] at h ⊢
        rcases cacheTail_dir_spec false [] (sxs_directory_config false s) with
          ⟨e, s9, hEq⟩ | ⟨q2, s9, hEq, hd⟩
        · rw [hEq] at h
          simp at h
        · rw [hEq] at h ⊢
          dsimp only at h ⊢
          injection h with h
          subst h
          exact ⟨hd, fun habs => absurd habs (by decide)⟩
      · simp only [if_neg hc] at h ⊢
        rcases finalFallback_dir_spec dt false [] s with
          ⟨s9, hEq⟩ | ⟨q2, s9, hEq, hd, hwr⟩
        · rw [hEq] at h
          simp at h
        · rw [hEq] at h ⊢
          dsimp only at h ⊢
          injection h with h
          subst h
          exact ⟨hd, fun _ => hwr hc⟩
    | true =>
      rw [show (if true = true then persistentAttempt dt s else (none, [], s)) =
          persistentAttempt dt s from rfl] at h ⊢
      cases hatt : persistentAttempt dt s with
      | mk o rest =>
        obtain ⟨u, s1⟩ := rest
        rw [hatt] at h
        cases o with
        | some q1 =>
          dsimp only at h ⊢
          injection h with h
          subst h
          have hfacts := persistentAttempt_some dt s q1 u s1 hatt
          exact ⟨hfacts.2, fun _ => hfacts.1⟩
        | none =>
          dsimp only at h ⊢
          by_cases hc : dt = "cache"
          · subst hc
            simp only [String.reduceEq, reduceIte] at h ⊢
            rcases cacheTail_dir_spec true u (sxs_directory_config true s1) with
              ⟨e, s9, hEq⟩ | ⟨q2, s9, hEq, hd⟩
            · rw [hEq] at h
              simp at h
            · rw [hEq] at h ⊢
              dsimp only at h ⊢
              injection h with h
              subst h
              exact ⟨hd, fun habs => absurd habs (by decide)⟩
          · simp only [if_neg hc] at h ⊢
            rcases finalFallback_dir_spec dt true u s1 with
              ⟨s9, hEq⟩ | ⟨q2, s9, hEq, hd, hwr⟩
            · rw [hEq] at h
              simp at h
            · rw [hEq] at h ⊢
              dsimp only at h ⊢
              injection h with h
              subst h
              exact ⟨hd, fun _ => hwr hc⟩

theorem sxs_directory_fresh_ok_exists_witness :
    lookupCache envSt.cache ("config", true) = none ∧
    (sxs_directory "config" true envSt).1 = Except.ok ["/e"] ∧
    (((sxs_directory "config" true envSt).2).isDir ["/e"] = true ∧
      ("config" = "config" → ((sxs_directory "config" true envSt).2).writable ["/e"] = true)) :=
  ⟨rfl, rfl, sxs_directory_fresh_ok_exists "config" true envSt ["/e"] rfl rfl⟩

/-- C1 counterexample: with every persistent candidate unwritable and an
all-permissive `mkdir`, the cache resolution succeeds and returns the `cache`
subdirectory of the second temporary directory — which exists but is NOT
writable at return time (its writability was never checked). -/
theorem sxs_directory_unwritable_fallback_cex :
    (sxs_directory "cache" true baseSt).1 = Except.ok ["tmp", "sxs-1", "cache"] ∧
    ((sxs_directory "cache" true baseSt).2).isDir ["tmp", "sxs-1", "cache"] = true ∧
    ((sxs_directory "cache" true baseSt).2).writable ["tmp", "sxs-1", "cache"] = false :=
  ⟨rfl, rfl, rfl⟩

theorem routeToFallback_spec (dt : String) (p : Bool) (s : St) (u : DirPath) (sF : St)
    (h : routeToFallback dt p s = some (u, sF)) :
    sxs_directory dt p s = finalFallback dt p u sF := by
  unfold routeToFallback at h
  unfold sxs_directory sxs_body
  cases hLook : lookupCache s.cache (dt, p) with
  | some q0 =>
    rw [hLook] at h
    simp at h
  | none =>
    rw [hLook] at h
    dsimp only at h ⊢
    by_cases hdt : dt ∉ (["cache", "config"] : List String)
    · rw [if_pos hdt] at h
      simp at h
    · rw [if_neg hdt] at h ⊢
      cases hstep : (if p = true then persistentAttempt dt s else (none, [], s)) with
      | mk o rest =>
        obtain ⟨u1, s1⟩ := rest
        rw [hstep] at h
        cases o with
        | some q1 =>
          simp at h
        | none =>
          dsimp only at h ⊢
          by_cases hc : dt = "cache"
          · subst hc
            simp only [String.reduceEq, reduceIte] at h ⊢
            rw [show sxs_directory_config p s1 = sxs_directory "config" p s1 from
              (sxs_directory_config_eq p s1).symm]
            cases hinner : sxs_directory "config" p s1 with
            | mk r s2 =>
              rw [hinner] at h
              cases r with
              | error e =>
                simp at h
              | ok cfg =>
                unfold cacheTail
                dsimp only at h ⊢
                cases hpm : plainMkdir (cfg ++ ["cache"]) s2 with
                | none =>
                  rw [hpm] at h
                  dsimp only at h
                  simp only [Option.some.injEq, Prod.mk.injEq] at h
                  obtain ⟨h1, h2⟩ := h
                  subst h1
                  subst h2
                  rfl
                | some s3 =>
                  rw [hpm] at h
                  dsimp only at h ⊢
                  by_cases hcond : (s3.writable (cfg ++ ["cache"]) &&
                      s3.isDir (cfg ++ ["cache"])) = true
                  · rw [if_pos hcond] at h
                    simp at h
                  · rw [if_neg hcond] at h ⊢
                    simp only [Option.some.injEq, Prod.mk.injEq] at h
                    obtain ⟨h1, h2⟩ := h
                    subst h1
                    subst h2
                    rfl
          · rw [if_neg hc] at h
            simp only [if_neg hc]
            simp only [Option.some.injEq, Prod.mk.injEq] at h
            obtain ⟨h1, h2⟩ := h
            subst h1
            subst h2
            rfl

theorem getEnv_setEnv_self (e : List (String × String)) (k v : String) :
    getEnv (setEnv e k v) k = some v := by
  simp [setEnv, getEnv]

theorem plainMkdir_some_fields (X : DirPath) (s s4 : St) (h : plainMkdir X s = some s4) :
    s4.env = s.env ∧ s4.cleanups = s.cleanups ∧ s4.warnings = s.warnings := by
  unfold plainMkdir at h
  by_cases h1 : s.isDir X = true
  · rw [if_pos h1] at h
    injection h with h
    subst h
    exact ⟨rfl, rfl, rfl⟩
  · rw [if_neg h1] at h
    by_cases h2 : (s.mkdirRaises X || !s.isDir X.dropLast) = true
    · rw [if_pos h2] at h
      simp at h
    · rw [if_neg h2] at h
      injection h with h
      subst h
      exact ⟨rfl, rfl, rfl⟩

/-- C3 (amended): whenever resolution falls through to the
temporary-directory tier, a fresh temporary directory is created and
returned, the `SXS<TYPE>DIR` variable is set to it, an exit-time cleanup is
registered — and a warning naming the purpose, the temporary path and the
unwritable candidate is emitted exactly once if and only if `persistent` is
true; with `persistent=False` no warning is emitted. -/
theorem sxs_directory_fallback_warning (dt : String) (p : Bool) (s : St)
    (u : DirPath) (sF : St)
    (hroute : routeToFallback dt p s = some (u, sF))
    (hr : sF.mkdtempRaises sF.tmpCtr = false)
    (hmk : sF.mkdirRaises (sF.mkdtempName sF.tmpCtr ++ ["cache"]) = false) :
    (sxs_directory dt p s).1 = Except.ok (sF.mkdtempName sF.tmpCtr ++ suffixOf dt) ∧
    getEnv ((sxs_directory dt p s).2).env ("SXS" ++ strUpper dt ++ "DIR") =
      some (pathStr (sF.mkdtempName sF.tmpCtr)) ∧
    ((sxs_directory dt p s).2).cleanups = sF.mkdtempName sF.tmpCtr :: sF.cleanups ∧
    ((sxs_directory dt p s).2).warnings =
      sF.warnings ++
        (if p = true then [⟨dt, sF.mkdtempName sF.tmpCtr ++ suffixOf dt, u⟩] else []) := by
  rw [routeToFallback_spec dt p s u sF hroute]
  have hmkd : mkdtempOp sF = some (sF.mkdtempName sF.tmpCtr,
      { sF with tmpCtr := sF.tmpCtr + 1,
                isDir := fun q => q == sF.mkdtempName sF.tmpCtr || sF.isDir q,
                writable := fun q => q == sF.mkdtempName sF.tmpCtr || sF.writable q }) := by
    unfold mkdtempOp
    rw [hr]
    rfl
  unfold finalFallback
  rw [hmkd]
  dsimp only
  cases p with
  | false =>
    rw [show ∀ (a b : St), (if false = true then a else b) = b from fun a b => rfl]
    by_cases hc : dt = "cache"
    · subst hc
      simp only [String.reduceEq, reduceIte, suffixOf] at hmk ⊢
      split
      · next heq =>
          exfalso
          unfold plainMkdir at heq
          revert heq
          split
          · intro heq
            exact Option.noConfusion heq
          · split
            · next hbad =>
                simp [hmk, List.dropLast_concat] at hbad
            · intro heq
              exact Option.noConfusion heq
      · next s4 heq =>
          obtain ⟨he, hcl, hwn⟩ := plainMkdir_some_fields _ _ s4 heq
          refine ⟨rfl, ?_, ?_, ?_⟩
          · show getEnv s4.env _ = _
            rw [he]
            exact getEnv_setEnv_self _ _ _
          · show s4.cleanups = _
            rw [hcl]
          · show s4.warnings = _
            rw [hwn]
            simp
    · simp only [if_neg hc]
      exact ⟨trivial, getEnv_setEnv_self _ _ _, rfl, by simp [cacheInsert]⟩
  | true =>
    rw [show ∀ (a b : St), (if true = true then a else b) = a from fun a b => rfl]
    by_cases hc : dt = "cache"
    · subst hc
      simp only [String.reduceEq, reduceIte, suffixOf] at hmk ⊢
      split
      · next heq =>
          exfalso
          unfold plainMkdir at heq
          revert heq
          split
          · intro heq
            exact Option.noConfusion heq
          · split
            · next hbad =>
                simp [hmk, List.dropLast_concat] at hbad
            · intro heq
              exact Option.noConfusion heq
      · next s4 heq =>
          obtain ⟨he, hcl, hwn⟩ := plainMkdir_some_fields _ _ s4 heq
          refine ⟨rfl, ?_, ?_, ?_⟩
          · show getEnv s4.env _ = _
            rw [he]
            exact getEnv_setEnv_self _ _ _
          · show s4.cleanups = _
            rw [hcl]
          · show s4.warnings = _
            rw [hwn]
    · simp only [if_neg hc]
      exact ⟨trivial, getEnv_setEnv_self _ _ _, rfl, rfl⟩

/-- C3 counterexample: with `persistent=False` the resolution falls through
to the temporary tier (a temporary directory is created, registered for
cleanup and exported through `SXSCONFIGDIR`) yet NO warning is emitted,
because the `warnings.warn` call is guarded by `if persistent:`. -/
theorem sxs_fallback_no_warning_cex :
    (sxs_directory "config" false baseSt).1 = Except.ok ["tmp", "sxs-0"] ∧
    ((sxs_directory "config" false baseSt).2).cleanups = [["tmp", "sxs-0"]] ∧
    getEnv ((sxs_directory "config" false baseSt).2).env "SXSCONFIGDIR" =
      some "/tmp/sxs-0" ∧
    ((sxs_directory "config" false baseSt).2).warnings = [] :=
  ⟨rfl, rfl, rfl, rfl⟩

theorem sxs_directory_fallback_warning_witness :
    (sxs_directory "config" true baseSt).1 =
      Except.ok (fallbackWitnessSt.mkdtempName fallbackWitnessSt.tmpCtr ++ suffixOf "config") ∧
    getEnv ((sxs_directory "config" true baseSt).2).env ("SXS" ++ strUpper "config" ++ "DIR") =
      some (pathStr (fallbackWitnessSt.mkdtempName fallbackWitnessSt.tmpCtr)) ∧
    ((sxs_directory "config" true baseSt).2).cleanups =
      fallbackWitnessSt.mkdtempName fallbackWitnessSt.tmpCtr :: fallbackWitnessSt.cleanups ∧
    ((sxs_directory "config" true baseSt).2).warnings =
      fallbackWitnessSt.warnings ++
        (if true = true then
          [⟨"config", fallbackWitnessSt.mkdtempName fallbackWitnessSt.tmpCtr ++ suffixOf "config",
            ["home", ".config", "sxs"]⟩]
        else []) :=
  sxs_directory_fallback_warning "config" true baseSt ["home", ".config", "sxs"]
    fallbackWitnessSt rfl rfl rfl

theorem stableFields_refl (s : St) : stableFields s s :=
  ⟨rfl, rfl, rfl, rfl⟩

theorem stableFields_trans {s1 s2 s3 : St}
    (a : stableFields s1 s2) (b : stableFields s2 s3) : stableFields s1 s3 :=
  ⟨b.1.trans a.1, b.2.1.trans a.2.1, b.2.2.1.trans a.2.2.1, b.2.2.2.trans a.2.2.2⟩

theorem parentsMkdir_some_shape (X : DirPath) (s s2 : St)
    (h : parentsMkdir X s = some s2) : ∃ d, s2 = { s with isDir := d } := by
  unfold parentsMkdir at h
  by_cases h1 : s.isDir X = true
  · rw [if_pos h1] at h
    injection h with h
    exact ⟨s.isDir, by rw [← h]⟩
  · rw [if_neg h1] at h
    by_cases h2 : s.mkdirRaises X = true
    · rw [if_pos h2] at h
      exact Option.noConfusion h
    · rw [if_neg h2] at h
      injection h with h
      exact ⟨_, h.symm⟩

theorem plainMkdir_some_shape (X : DirPath) (s s2 : St)
    (h : plainMkdir X s = some s2) : ∃ d, s2 = { s with isDir := d } := by
  unfold plainMkdir at h
  by_cases h1 : s.isDir X = true
  · rw [if_pos h1] at h
    injection h with h
    exact ⟨s.isDir, by rw [← h]⟩
  · rw [if_neg h1] at h
    by_cases h2 : (s.mkdirRaises X || !s.isDir X.dropLast) = true
    · rw [if_pos h2] at h
      exact Option.noConfusion h
    · rw [if_neg h2] at h
      injection h with h
      exact ⟨_, h.symm⟩

theorem persistentAttempt_stable (dt : String) (s : St) :
    stableFields s ((persistentAttempt dt s).2.2) := by
  unfold persistentAttempt
  dsimp only
  cases hpm : parentsMkdir (persistentCandidate dt s) s with
  | none => exact stableFields_refl s
  | some s1 =>
    obtain ⟨d, hd⟩ := parentsMkdir_some_shape _ _ _ hpm
    subst hd
    dsimp only
    split
    · exact ⟨rfl, rfl, rfl, rfl⟩
    · exact ⟨rfl, rfl, rfl, rfl⟩

theorem finalFallback_stable (dt : String) (p : Bool) (u : DirPath) (s : St) :
    stableFields s ((finalFallback dt p u s).2) := by
  unfold finalFallback
  cases hmk : mkdtempOp s with
  | none => exact stableFields_refl s
  | some ts =>
    have hts := mkdtempOp_some_eq s ts hmk
    obtain ⟨t, s1⟩ := ts
    simp only [Prod.mk.injEq] at hts
    obtain ⟨ht, hs1⟩ := hts
    subst ht
    subst hs1
    dsimp only
    by_cases hc : dt = "cache"
    · subst hc
      simp only [String.reduceEq, reduceIte]
      cases p with
      | false =>
        split
        · exact ⟨rfl, rfl, rfl, rfl⟩
        · next s4 heq =>
            obtain ⟨d, hd⟩ := plainMkdir_some_shape _ _ _ heq
            subst hd
            exact ⟨rfl, rfl, rfl, rfl⟩
      | true =>
        split
        · exact ⟨rfl, rfl, rfl, rfl⟩
        · next s4 heq =>
            obtain ⟨d, hd⟩ := plainMkdir_some_shape _ _ _ heq
            subst hd
            exact ⟨rfl, rfl, rfl, rfl⟩
    · simp only [if_neg hc]
      cases p with
      | false => exact ⟨rfl, rfl, rfl, rfl⟩
      | true => exact ⟨rfl, rfl, rfl, rfl⟩

theorem cacheTail_stable (p : Bool) (u : DirPath) (inn : Except Err DirPath × St) :
    stableFields inn.2 ((cacheTail p u inn).2) := by
  unfold cacheTail
  obtain ⟨r, s2⟩ := inn
  cases r with
  | error e => exact stableFields_refl s2
  | ok cfg =>
    dsimp only
    split
    · exact finalFallback_stable "cache" p u s2
    · next s3 heq =>
        obtain ⟨d, hd⟩ := plainMkdir_some_shape _ _ _ heq
        split
        · subst hd
          exact ⟨rfl, rfl, rfl, rfl⟩
        · refine stableFields_trans ?_ (finalFallback_stable "cache" p u s3)
          subst hd
          exact ⟨rfl, rfl, rfl, rfl⟩

theorem sxs_body_stable (inner : Bool → St → Except Err DirPath × St)
    (hinner : ∀ p s, stableFields s ((inner p s).2)) (dt : String) (p : Bool) (s : St) :
    stableFields s ((sxs_body inner dt p s).2) := by
  unfold sxs_body
  cases hLook : lookupCache s.cache (dt, p) with
  | some q0 => exact stableFields_refl s
  | none =>
    dsimp only
    by_cases hdt : dt ∉ (["cache", "config"] : List String)
    · rw [if_pos hdt]
      exact stableFields_refl s
    · rw [if_neg hdt]
      cases p with
      | false =>
        rw [show (if false = true then persistentAttempt dt s else (none, [], s)) =
            ((none : Option DirPath), ([] : DirPath), s) from rfl]
        dsimp only
        by_cases hc : dt = "cache"
        · subst hc
          simp only [String.reduceEq, reduceIte]
          exact stableFields_trans (hinner false s) (cacheTail_stable false [] (inner false s))
        · simp only [if_neg hc]
          exact finalFallback_stable dt false [] s
      | true =>
        rw [show (if true = true then persistentAttempt dt s else (none, [], s)) =
            persistentAttempt dt s from rfl]
        cases hatt : persistentAttempt dt s with
        | mk o rest =>
          obtain ⟨u, s1⟩ := rest
          have hstab1 : stableFields s s1 := by
            have hpa := persistentAttempt_stable dt s
            rw [hatt] at hpa
            exact hpa
          cases o with
          | some q1 => exact hstab1
          | none =>
            dsimp only
            by_cases hc : dt = "cache"
            · subst hc
              simp only [String.reduceEq, reduceIte]
              exact stableFields_trans hstab1
                (stableFields_trans (hinner true s1) (cacheTail_stable true u (inner true s1)))
            · simp only [if_neg hc]
              exact stableFields_trans hstab1 (finalFallback_stable dt true u s1)

theorem sxs_directory_config_stable (p : Bool) (s : St) :
    stableFields s ((sxs_directory_config p s).2) :=
  sxs_body_stable _ (fun _ s2 => stableFields_refl s2) "config" p s

theorem sxs_directory_stable (dt : String) (p : Bool) (s : St) :
    stableFields s ((sxs_directory dt p s).2) :=
  sxs_body_stable sxs_directory_config sxs_directory_config_stable dt p s

theorem finalFallback_ok_exists (dt : String) (p : Bool) (u : DirPath) (s : St)
    (hr : s.mkdtempRaises s.tmpCtr = false)
    (hmk2 : dt = "cache" → s.mkdirRaises (s.mkdtempName s.tmpCtr ++ ["cache"]) = false) :
    ∃ q, (finalFallback dt p u s).1 = Except.ok q := by
  have hmkd : mkdtempOp s = some (s.mkdtempName s.tmpCtr,
      { s with tmpCtr := s.tmpCtr + 1,
               isDir := fun q => q == s.mkdtempName s.tmpCtr || s.isDir q,
               writable := fun q => q == s.mkdtempName s.tmpCtr || s.writable q }) := by
    unfold mkdtempOp
    rw [hr]
    rfl
  unfold finalFallback
  rw [hmkd]
  dsimp only
  by_cases hc : dt = "cache"
  · have hmk := hmk2 hc
    subst hc
    simp only [String.reduceEq, reduceIte, suffixOf] at hmk ⊢
    cases p with
    | false =>
      rw [show ∀ (a b : St), (if false = true then a else b) = b from fun a b => rfl]
      split
      · next heq =>
          exfalso
          unfold plainMkdir at heq
          revert heq
          split
          · intro heq
            exact Option.noConfusion heq
          · split
            · next hbad =>
                simp [hmk, List.dropLast_concat] at hbad
            · intro heq
              exact Option.noConfusion heq
      · exact ⟨_, rfl⟩
    | true =>
      rw [show ∀ (a b : St), (if true = true then a else b) = a from fun a b => rfl]
      split
      · next heq =>
          exfalso
          unfold plainMkdir at heq
          revert heq
          split
          · intro heq
            exact Option.noConfusion heq
          · split
            · next hbad =>
                simp [hmk, List.dropLast_concat] at hbad
            · intro heq
              exact Option.noConfusion heq
      · exact ⟨_, rfl⟩
  · simp only [if_neg hc]
    exact ⟨_, rfl⟩

theorem sxs_directory_config_ok (p : Bool) (s : St)
    (hr : ∀ n, s.mkdtempRaises n = false) :
    ∃ q, (sxs_directory_config p s).1 = Except.ok q := by
  unfold sxs_directory_config sxs_body
  cases hLook : lookupCache s.cache ("config", p) with
  | some q0 => exact ⟨q0, rfl⟩
  | none =>
    dsimp only
    rw [if_neg (valid_dt_not_notMem (Or.inr rfl))]
    cases p with
    | false =>
      rw [show (if false = true then persistentAttempt "config" s else (none, [], s)) =
          ((none : Option DirPath), ([] : DirPath), s) from rfl]
      dsimp only
      rw [if_neg (show ¬ ("config" = "cache") by decide)]
      exact finalFallback_ok_exists "config" false [] s (hr _)
        (fun hcc => absurd hcc (by decide))
    | true =>
      rw [show (if true = true then persistentAttempt "config" s else (none, [], s)) =
          persistentAttempt "config" s from rfl]
      cases hatt : persistentAttempt "config" s with
      | mk o rest =>
        obtain ⟨u, s1⟩ := rest
        have hstab1 : stableFields s s1 := by
          have hpa := persistentAttempt_stable "config" s
          rw [hatt] at hpa
          exact hpa
        cases o with
        | some q1 => exact ⟨q1, rfl⟩
        | none =>
          dsimp only
          rw [if_neg (show ¬ ("config" = "cache") by decide)]
          refine finalFallback_ok_exists "config" true u s1 ?_
            (fun hcc => absurd hcc (by decide))
          rw [hstab1.2.2.2]
          exact hr _

theorem cacheTail_ok (p : Bool) (u : DirPath) (inn : Except Err DirPath × St)
    (hok : ∃ cfg, inn.1 = Except.ok cfg)
    (hr : ∀ n, inn.2.mkdtempRaises n = false)
    (hmk : ∀ n, inn.2.mkdirRaises (inn.2.mkdtempName n ++ ["cache"]) = false) :
    ∃ q, (cacheTail p u inn).1 = Except.ok q := by
  obtain ⟨r, s2⟩ := inn
  obtain ⟨cfg0, hok⟩ := hok
  cases r with
  | error e =>
    exfalso
    dsimp only at hok
    exact Except.noConfusion hok
  | ok cfg =>
    unfold cacheTail
    dsimp only
    split
    · exact finalFallback_ok_exists "cache" p u s2 (hr _) (fun _ => hmk _)
    · next s3 heq =>
        obtain ⟨d, hd⟩ := plainMkdir_some_shape _ _ _ heq
        split
        · exact ⟨_, rfl⟩
        · refine finalFallback_ok_exists "cache" p u s3 ?_ (fun _ => ?_)
          · subst hd
            exact hr _
          · subst hd
            exact hmk _

/-- C5 (amended): when `tempfile.mkdtemp` never fails and the unguarded final
`mkdir` of the `cache` subdirectory of a fresh temporary directory never
fails, `sxs_directory` always returns a path for both valid purposes — every
other filesystem-creation failure (the oracle `mkdirRaises` is arbitrary
elsewhere) is swallowed and never propagates to the caller. -/
theorem sxs_directory_total_unless_tmp (dt : String) (p : Bool) (s : St)
    (hdt : dt = "cache" ∨ dt = "config")
    (h1 : ∀ n, s.mkdtempRaises n = false)
    (h2 : ∀ n, s.mkdirRaises (s.mkdtempName n ++ ["cache"]) = false) :
    ∃ q, (sxs_directory dt p s).1 = Except.ok q := by
  unfold sxs_directory sxs_body
  cases hLook : lookupCache s.cache (dt, p) with
  | some q0 => exact ⟨q0, rfl⟩
  | none =>
    dsimp only
    rw [if_neg (valid_dt_not_notMem hdt)]
    cases p with
    | false =>
      rw [show (if false = true then persistentAttempt dt s else (none, [], s)) =
          ((none : Option DirPath), ([] : DirPath), s) from rfl]
      dsimp only
      by_cases hc : dt = "cache"
      · subst hc
        simp only [String.reduceEq, reduceIte]
        have hstab := sxs_directory_config_stable false s
        refine cacheTail_ok false [] (sxs_directory_config false s)
          (sxs_directory_config_ok false s h1) (fun n => ?_) (fun n => ?_)
        · rw [hstab.2.2.2]
          exact h1 n
        · rw [hstab.2.1, hstab.2.2.1]
          exact h2 n
      · simp only [if_neg hc]
        exact finalFallback_ok_exists dt false [] s (h1 _) (fun hcc => absurd hcc hc)
    | true =>
      rw [show (if true = true then persistentAttempt dt s else (none, [], s)) =
          persistentAttempt dt s from rfl]
      cases hatt : persistentAttempt dt s with
      | mk o rest =>
        obtain ⟨u, s1⟩ := rest
        have hstab1 : stableFields s s1 := by
          have hpa := persistentAttempt_stable dt s
          rw [hatt] at hpa
          exact hpa
        cases o with
        | some q1 => exact ⟨q1, rfl⟩
        | none =>
          dsimp only
          by_cases hc : dt = "cache"
          · subst hc
            simp only [String.reduceEq, reduceIte]
            have hstab2 := sxs_directory_config_stable true s1
            have hstabc := stableFields_trans hstab1 hstab2
            refine cacheTail_ok true u (sxs_directory_config true s1)
              (sxs_directory_config_ok true s1 (fun n => ?_)) (fun n => ?_) (fun n => ?_)
            · rw [hstab1.2.2.2]
              exact h1 n
            · rw [hstabc.2.2.2]
              exact h1 n
            · rw [hstabc.2.1, hstabc.2.2.1]
              exact h2 n
          · simp only [if_neg hc]
            refine finalFallback_ok_exists dt true u s1 ?_ (fun hcc => absurd hcc hc)
            rw [hstab1.2.2.2]
            exact h1 _

theorem sxs_directory_total_unless_tmp_witness :
    ∃ q, (sxs_directory "cache" true baseSt).1 = Except.ok q :=
  sxs_directory_total_unless_tmp "cache" true baseSt (Or.inl rfl)
    (fun _ => rfl) (fun _ => rfl)

/-- C5 counterexample: in `raisySt`, both `tempfile.mkdtemp` calls succeed
(the temp counter reaches 2 and `mkdtempRaises` is constantly false), yet
`sxs_directory("cache", persistent=False)` raises `OSError` — the exception
escapes from the unguarded `sxs_dir.mkdir(exist_ok=True)` on the final
fallback path, not from `tempfile.mkdtemp`. -/
theorem sxs_directory_raise_beyond_mkdtemp_cex :
    (sxs_directory "cache" false raisySt).1 = Except.error Err.osError ∧
    raisySt.mkdtempRaises 0 = false ∧ raisySt.mkdtempRaises 1 = false ∧
    ((sxs_directory "cache" false raisySt).2).tmpCtr = 2 :=
  ⟨rfl, rfl, rfl, rfl⟩

/-- C9: whenever the config directory resolves, `write_config` raises
`AttributeError` before writing anything — `config.open("w")` is invoked on
the dict (and, when `config.json` already exists, `json.load(config_path)`
already fails on the `Path`) — so the file oracle is left untouched:
`write_config` never creates or modifies `config.json`. -/
theorem write_config_attribute_error {α : Type} (kwargs : List (String × α)) (s : St)
    (dir : DirPath) (h : (sxs_directory "config" true s).1 = Except.ok dir) :
    (write_config kwargs s).1 = Except.error Err.attributeError ∧
    ((write_config kwargs s).2).isFile = s.isFile := by
  unfold write_config
  cases hrun : sxs_directory "config" true s with
  | mk r s1 =>
    have hFile : s1.isFile = s.isFile := by
      have hstab := (sxs_directory_stable "config" true s).1
      rw [hrun] at hstab
      exact hstab
    rw [hrun] at h
    dsimp only at h ⊢
    subst h
    dsimp only
    by_cases hex : pathExists s1 (dir ++ ["config.json"]) = true
    · rw [if_pos hex]
      exact ⟨rfl, hFile⟩
    · rw [if_neg hex]
      exact ⟨rfl, hFile⟩

theorem write_config_attribute_error_witness :
    (write_config [("download", "true")] envSt).1 = Except.error Err.attributeError ∧
    ((write_config [("download", "true")] envSt).2).isFile = envSt.isFile :=
  write_config_attribute_error [("download", "true")] envSt ["/e"] rfl

/-- C10: whenever the config directory resolves, `read_config` raises
`AttributeError` exactly when `config.json` exists (the `pathlib.Path` is
passed directly to `json.load`, which needs an object with a `read` method);
when the file is absent it completes normally, returning the empty dict for
`key=None` and the supplied default otherwise. -/
theorem read_config_path_bug {α : Type} (key : Option String) (default : α) (s : St)
    (dir : DirPath) (h : (sxs_directory "config" true s).1 = Except.ok dir) :
    (pathExists ((sxs_directory "config" true s).2) (dir ++ ["config.json"]) = true →
      (read_config key default s).1 = Except.error Err.attributeError) ∧
    (pathExists ((sxs_directory "config" true s).2) (dir ++ ["config.json"]) = false →
      (read_config key default s).1 = Except.ok (match key with
        | none => ReadResult.dict ([] : List (String × α))
        | some _ => ReadResult.value default)) := by
  unfold read_config
  cases hrun : sxs_directory "config" true s with
  | mk r s1 =>
    rw [hrun] at h
    dsimp only at h ⊢
    subst h
    dsimp only
    constructor
    · intro hex
      rw [if_pos hex]
      rfl
    · intro hex
      rw [if_neg (by rw [hex]; exact Bool.false_ne_true)]
      cases key with
      | none => rfl
      | some k => rfl

theorem read_config_path_bug_witness :
    (read_config (some "download") (0 : Nat) envSt).1 =
      Except.ok (ReadResult.value 0) ∧
    (read_config (none : Option String) (0 : Nat) envFileSt).1 =
      Except.error Err.attributeError :=
  ⟨(read_config_path_bug (some "download") 0 envSt ["/e"] rfl).2 rfl,
   (read_config_path_bug (none : Option String) 0 envFileSt ["/e"] rfl).1 rfl⟩

end Sxs
